import Mathlib

/-!
Verification of the deferred-task bridge and incoming-contact-request
registry of ricochet-refresh.

The deferred-task bridge is embedded from
src/libtego_ui/libtego_callbacks.cpp (consume_tasks, push_task,
consumeInterval, on_chat_request_response_received).  A task is a
function on an abstract application state that either succeeds with a
new state or raises an error carrying a message; the drain catches the
error, appends the log line qDebug produces, and continues.

The registry (IncomingRequestManager / IncomingContactRequest) is only
declared in src/core/IncomingRequestManager.h; its method bodies are not
part of the sources, so those operations are modelled from the spec and
are marked as such in their doc comments.
-/

/-- A deferred unit of work: acts on the abstract application state and
either succeeds with the updated state or raises an error with a message
(the what() of the thrown exception). -/
abbrev DeferredTask (σ : Type) : Type := σ → Except String σ

/-- State of the deferred-task bridge: the live queue producers push
into, the abstract application state the tasks mutate, the debug log,
and the delay of the currently scheduled timer shot (none when no tick
is scheduled). -/
structure BridgeState (σ : Type) where
  taskQueue : List (DeferredTask σ)
  appState : σ
  log : List String
  scheduledDelay : Option Nat

/-- The fixed drain period, from constexpr int consumeInterval = 10. -/
def consumeInterval : Nat := 10

/-- Execute one task at the drain boundary: on success the state is
updated, on error the state is left unchanged and the error is logged
(the catch block around task() in consume_tasks). -/
def runTask {σ : Type} (s : σ) (log : List String) (task : DeferredTask σ) : σ × List String :=
  match task s with
  | Except.ok s2 => (s2, log)
  | Except.error msg => (s, log ++ ["Exception thrown from task: " ++ msg])

/-- Execute a drained batch in order, isolating each task's failure
(the for-loop of consume_tasks). -/
def runBatch {σ : Type} : List (DeferredTask σ) → σ → List String → σ × List String
  | [], s, log => (s, log)
  | t :: ts, s, log =>
    let r := runTask s log t
    runBatch ts r.1 r.2

/-- One drain tick (consume_tasks): swap the live queue for an empty
one, execute the swapped-out batch in order with per-task fault
isolation, then reschedule via QTimer singleShot with consumeInterval.
The argument during lists the tasks producers push into the fresh queue
while this batch executes; they become the next live queue. -/
def consume_tasks {σ : Type} (st : BridgeState σ) (during : List (DeferredTask σ)) : BridgeState σ :=
  let batch := st.taskQueue
  let r := runBatch batch st.appState st.log
  { taskQueue := during
    appState := r.1
    log := r.2
    scheduledDelay := some consumeInterval }

/-- Enqueue one deferred task (push_task): append to the live queue
under the queue lock, touching nothing else. -/
def push_task {σ : Type} (st : BridgeState σ) (f : DeferredTask σ) : BridgeState σ :=
  { st with taskQueue := st.taskQueue ++ [f] }

/-- The bridge after n drain ticks starting from st, where durings k
lists the tasks enqueued while tick k executes. -/
def ticksFrom {σ : Type} (st : BridgeState σ) (durings : Nat → List (DeferredTask σ)) : Nat → BridgeState σ
  | 0 => st
  | n + 1 => consume_tasks (ticksFrom st durings n) (durings n)

/-- Instrumentation task over trace states: records its identifier at
the end of the trace and always succeeds. -/
def appendTask (i : Nat) : DeferredTask (List Nat) := fun s => Except.ok (s ++ [i])

/-- Instrumentation task that always raises an error with message msg. -/
def failTask (msg : String) : DeferredTask (List Nat) := fun _ => Except.error msg

theorem runBatch_append {σ : Type} (a b : List (DeferredTask σ)) (s : σ) (l : List String) :
    runBatch (a ++ b) s l = runBatch b (runBatch a s l).1 (runBatch a s l).2 := by
  induction a generalizing s l with
  | nil => rfl
  | cons t ts ih => simp [runBatch, ih]

theorem runBatch_appendTasks (ids : List Nat) (tr : List Nat) (l : List String) :
    runBatch (ids.map appendTask) tr l = (tr ++ ids, l) := by
  induction ids generalizing tr with
  | nil => simp [runBatch]
  | cons i is ih => simp [runBatch, runTask, appendTask, ih]

theorem foldl_push_task {σ : Type} (fs : List (DeferredTask σ)) (st : BridgeState σ) :
    (List.foldl push_task st fs).taskQueue = st.taskQueue ++ fs := by
  induction fs generalizing st with
  | nil => simp
  | cons f fs ih => simp [List.foldl, ih, push_task]

/-- C1: if a task in a drained batch raises an error, the error is
caught and the log line is appended, the remaining tasks of the batch
still run from the unchanged application state, and the next tick is
scheduled normally: the whole drain equals the drain of the remainder
after logging the failure. -/
theorem consume_tasks_fault_isolation {σ : Type} (st : BridgeState σ)
    (during : List (DeferredTask σ)) (pre post : List (DeferredTask σ)) (t : DeferredTask σ) (msg : String)
    (hq : st.taskQueue = pre ++ t :: post)
    (hfail : t (runBatch pre st.appState st.log).1 = Except.error msg) :
    consume_tasks st during =
      consume_tasks
        { taskQueue := post
          appState := (runBatch pre st.appState st.log).1
          log := (runBatch pre st.appState st.log).2 ++ ["Exception thrown from task: " ++ msg]
          scheduledDelay := st.scheduledDelay } during
    ∧ (consume_tasks st during).scheduledDelay = some consumeInterval := by
  constructor
  · simp only [consume_tasks, hq, runBatch_append, runBatch, runTask, hfail]
  · rfl

/-- Witness for C1 at a concrete three-task batch whose middle task
raises an error with message boom. -/
theorem consume_tasks_fault_isolation_witness :
    consume_tasks
        { taskQueue := [appendTask 1, failTask "boom", appendTask 2]
          appState := ([] : List Nat)
          log := []
          scheduledDelay := none } [] =
      consume_tasks
        { taskQueue := [appendTask 2]
          appState := (runBatch [appendTask 1] ([] : List Nat) []).1
          log := (runBatch [appendTask 1] ([] : List Nat) []).2 ++ ["Exception thrown from task: " ++ "boom"]
          scheduledDelay := none } []
    ∧ (consume_tasks
        { taskQueue := [appendTask 1, failTask "boom", appendTask 2]
          appState := ([] : List Nat)
          log := []
          scheduledDelay := none } []).scheduledDelay = some consumeInterval :=
  consume_tasks_fault_isolation
    { taskQueue := [appendTask 1, failTask "boom", appendTask 2]
      appState := ([] : List Nat)
      log := []
      scheduledDelay := none }
    [] [appendTask 1] [appendTask 2] (failTask "boom") "boom" rfl rfl

/-- C2: push_task appends at the tail of the live queue, so a sequence
of pushes lands in the queue in enqueue order, and draining a batch of
instrumented tasks records every identifier exactly once, in that
order: exactly-once execution with FIFO order within the batch. -/
theorem push_drain_fifo_exactly_once {σ : Type} (st : BridgeState σ) (fs : List (DeferredTask σ))
    (ids tr : List Nat) (l : List String) (d : Option Nat) (during : List (DeferredTask (List Nat))) :
    (List.foldl push_task st fs).taskQueue = st.taskQueue ++ fs
    ∧ (consume_tasks
        { taskQueue := ids.map appendTask
          appState := tr
          log := l
          scheduledDelay := d } during).appState = tr ++ ids := by
  refine ⟨foldl_push_task fs st, ?_⟩
  simp [consume_tasks, runBatch_appendTasks]

/-- C3: a drain tick executes exactly the queue captured at its swap
(the batch), tasks pushed during the drain are not executed by this tick
but become the next live queue, and the following tick executes them
after the current batch: on instrumented traces the first tick records
only the pre-swap identifiers and the second tick appends the ones
enqueued during the first drain. -/
theorem drain_tick_boundary {σ : Type} (st : BridgeState σ) (during : List (DeferredTask σ))
    (ids ids2 tr : List Nat) (l : List String) (d : Option Nat) :
    (consume_tasks st during).taskQueue = during
    ∧ (consume_tasks st during).appState = (runBatch st.taskQueue st.appState st.log).1
    ∧ (consume_tasks
        { taskQueue := ids.map appendTask
          appState := tr
          log := l
          scheduledDelay := d } (ids2.map appendTask)).appState = tr ++ ids
    ∧ (consume_tasks (consume_tasks
        { taskQueue := ids.map appendTask
          appState := tr
          log := l
          scheduledDelay := d } (ids2.map appendTask)) []).appState = tr ++ ids ++ ids2 := by
  refine ⟨rfl, rfl, ?_, ?_⟩
  · simp [consume_tasks, runBatch_appendTasks]
  · simp [consume_tasks, runBatch_appendTasks]

/-- C4: every drain tick ends by scheduling the next tick after the
fixed period consumeInterval, whose value is 10; iterating ticks keeps a
tick scheduled after every one of them, and push_task never touches the
schedule: no core operation cancels the loop. -/
theorem drain_self_perpetuating {σ : Type} (st : BridgeState σ)
    (durings : Nat → List (DeferredTask σ)) (n : Nat) (f : DeferredTask σ) (during : List (DeferredTask σ)) :
    (consume_tasks st during).scheduledDelay = some consumeInterval
    ∧ (ticksFrom st durings (n + 1)).scheduledDelay = some consumeInterval
    ∧ consumeInterval = 10
    ∧ (push_task st f).scheduledDelay = st.scheduledDelay := by
  refine ⟨rfl, ?_, rfl, rfl⟩
  simp [ticksFrom, consume_tasks]

/-!
Persistence store.  The key-value persistence engine is an external
collaborator (utils/Settings.h is not among the sources); the spec fixes
only its interface: string-path keys, per-record namespace
contacts.hostname.request with fields secret, message, nickname, date,
lastRequestDate, and subtree removal for unset.  Keys are modelled as
segment lists, values as tagged strings or numbers.
-/

/-- A persisted value: a byte-string or string field, or a timestamp. -/
inductive SettingVal where
  | str (s : String)
  | num (n : Nat)
deriving DecidableEq, Repr

/-- The persistence store: an association list from key paths to
values; earlier entries shadow later ones. -/
abbrev SettingsStore : Type := List (List String × SettingVal)

/-- Read the value at a key path, none when the key is absent. -/
def storeRead : SettingsStore → List String → Option SettingVal
  | [], _ => none
  | kv :: rest, k => if kv.1 = k then some kv.2 else storeRead rest k

/-- Remove every entry whose key path equals k. -/
def storeErase (k : List String) : SettingsStore → SettingsStore
  | [] => []
  | kv :: rest => if kv.1 = k then storeErase k rest else kv :: storeErase k rest

/-- Write a value at a key path, replacing any previous entry. -/
def storeWrite (k : List String) (v : SettingVal) (s : SettingsStore) : SettingsStore :=
  (k, v) :: storeErase k s

/-- keyUnder p k is true when the key path k lies inside the namespace
p, that is, p is a segment-wise initial part of k. -/
def keyUnder : List String → List String → Bool
  | [], _ => true
  | _ :: _, [] => false
  | p :: ps, k :: ks => if p = k then keyUnder ps ks else false

/-- Remove every entry inside the namespace p (SettingsObject unset of a
whole subtree, as used for contacts.serviceId unset request). -/
def storeUnsetTree (p : List String) : SettingsStore → SettingsStore
  | [] => []
  | kv :: rest => if keyUnder p kv.1 then storeUnsetTree p rest else kv :: storeUnsetTree p rest

theorem storeRead_write_self (k : List String) (v : SettingVal) (s : SettingsStore) :
    storeRead (storeWrite k v s) k = some v := by
  simp [storeWrite, storeRead]

theorem storeRead_erase_ne (k k2 : List String) (s : SettingsStore) (hne : k2 ≠ k) :
    storeRead (storeErase k s) k2 = storeRead s k2 := by
  induction s with
  | nil => rfl
  | cons kv rest ih =>
    by_cases hk : kv.1 = k
    · have hk2 : ¬ k = k2 := fun hcon => hne hcon.symm
      simp [storeErase, hk, storeRead, hk2, ih]
    · simp [storeErase, hk, storeRead, ih]

theorem storeRead_write_ne (k k2 : List String) (v : SettingVal) (s : SettingsStore)
    (hne : k2 ≠ k) :
    storeRead (storeWrite k v s) k2 = storeRead s k2 := by
  simp only [storeWrite, storeRead]
  rw [if_neg (fun hcon => hne hcon.symm)]
  exact storeRead_erase_ne k k2 s hne

theorem storeRead_unsetTree (p : List String) (s : SettingsStore) (k : List String) :
    storeRead (storeUnsetTree p s) k = if keyUnder p k then none else storeRead s k := by
  induction s with
  | nil => simp [storeUnsetTree, storeRead]
  | cons kv rest ih =>
    by_cases hp : keyUnder p kv.1
    · by_cases hkk : kv.1 = k
      · have hpk : keyUnder p k = true := by rw [← hkk]; exact hp
        simp [storeUnsetTree, hp, storeRead, ih, hpk]
      · simp [storeUnsetTree, hp, storeRead, ih, hkk]
    · by_cases hkk : kv.1 = k
      · have hpk : ¬ keyUnder p k = true := by rw [← hkk]; exact hp
        simp [storeUnsetTree, hp, storeRead, hkk, hpk]
      · simp [storeUnsetTree, hp, storeRead, hkk, ih]

/-!
Request record and registry.  The class declarations come from
src/core/IncomingRequestManager.h; the method bodies are not among the
sources, so every operation below that is not an inline header
definition is modelled from the spec.
-/

/-- One pending contact request (IncomingContactRequest): the unique
hostname key, the transport secret, free-text message, display
nickname, first-seen and most-recent timestamps, and the optional
non-owning live-connection reference, held as the identifier of a
transport session. -/
structure IncomingContactRequest where
  hostname : String
  remoteSecret : String
  message : String
  nickname : String
  requestDate : Nat
  lastRequestDate : Nat
  connection : Option Nat
deriving DecidableEq, Repr

/-- Lifecycle or field-changed notification emitted by the registry. -/
inductive RegEvent where
  | added (hostname : String)
  | removed (hostname : String)
  | fieldsChanged (hostname : String)
deriving DecidableEq, Repr

/-- State of the registry (IncomingRequestManager): the in-memory
record collection, the persistence store, the persisted blacklist of
rejected hostnames, and the trace of emitted events. -/
structure RegistryState where
  requests : List IncomingContactRequest
  store : SettingsStore
  blacklist : List String
  events : List RegEvent
deriving Repr

/-- A freshly constructed registry with nothing loaded. -/
def initRegistry : RegistryState :=
  { requests := [], store := [], blacklist := [], events := [] }

/-- Key path of one persisted field of a request record:
contacts.hostname.request.field. -/
def requestKey (h : String) (f : String) : List String :=
  ["contacts", h, "request", f]

/-- Modelled from the spec: IncomingContactRequest save, whose body is
not among the sources — serialize the record's fields into the store
under the per-hostname namespace contacts.hostname.request. -/
def saveRequest (r : IncomingContactRequest) (s : SettingsStore) : SettingsStore :=
  storeWrite (requestKey r.hostname "lastRequestDate") (SettingVal.num r.lastRequestDate)
    (storeWrite (requestKey r.hostname "date") (SettingVal.num r.requestDate)
      (storeWrite (requestKey r.hostname "nickname") (SettingVal.str r.nickname)
        (storeWrite (requestKey r.hostname "message") (SettingVal.str r.message)
          (storeWrite (requestKey r.hostname "secret") (SettingVal.str r.remoteSecret) s))))

/-- Read a string-valued field, with the empty string as the default of
an absent key. -/
def readStr (s : SettingsStore) (k : List String) : String :=
  match storeRead s k with
  | some (SettingVal.str v) => v
  | _ => ""

/-- Read a numeric field, with 0 as the default of an absent key. -/
def readNum (s : SettingsStore) (k : List String) : Nat :=
  match storeRead s k with
  | some (SettingVal.num v) => v
  | _ => 0

/-- Modelled from the spec: IncomingContactRequest load, whose body is
not among the sources — materialize a fresh record for hostname h from
the per-hostname namespace; the live connection is never persisted. -/
def loadRequest (h : String) (s : SettingsStore) : IncomingContactRequest :=
  { hostname := h
    remoteSecret := readStr s (requestKey h "secret")
    message := readStr s (requestKey h "message")
    nickname := readStr s (requestKey h "nickname")
    requestDate := readNum s (requestKey h "date")
    lastRequestDate := readNum s (requestKey h "lastRequestDate")
    connection := none }

/-- First record with the given hostname in a collection. -/
def findReq : List IncomingContactRequest → String → Option IncomingContactRequest
  | [], _ => none
  | r :: rest, h => if r.hostname = h then some r else findReq rest h

/-- All records with the given hostname, in collection order. -/
def reqsFor : List IncomingContactRequest → String → List IncomingContactRequest
  | [], _ => []
  | r :: rest, h => if r.hostname = h then r :: reqsFor rest h else reqsFor rest h

/-- Replace every record with the given hostname by r2, leaving the
others in place. -/
def mapReplace : List IncomingContactRequest → String → IncomingContactRequest → List IncomingContactRequest
  | [], _, _ => []
  | q :: rest, h, r2 => (if q.hostname = h then r2 else q) :: mapReplace rest h r2

/-- Drop every record with the given hostname. -/
def removeReqList : List IncomingContactRequest → String → List IncomingContactRequest
  | [], _ => []
  | r :: rest, h => if r.hostname = h then removeReqList rest h else r :: removeReqList rest h

/-- IncomingRequestManager requestFromHostname: lookup by key, none
when absent (declared in the header; lookup semantics from the spec). -/
def requestFromHostname (st : RegistryState) (h : String) : Option IncomingContactRequest :=
  findReq st.requests h

/-- Arguments of one addRequest call: the caller's timestamp and the
latest secret, connection handle, nickname and message. -/
structure AddCall where
  now : Nat
  secret : String
  conn : Option Nat
  nickname : String
  message : String
deriving DecidableEq, Repr

/-- The record created by a first addRequest call for h: both dates are
the call's timestamp and all fields come from the call. -/
def freshRec (h : String) (c : AddCall) : IncomingContactRequest :=
  { hostname := h
    remoteSecret := c.secret
    message := c.message
    nickname := c.nickname
    requestDate := c.now
    lastRequestDate := c.now
    connection := c.conn }

/-- The record after a renewal call on r: lastRequestDate and the four
payload fields are overwritten, hostname and requestDate are kept. -/
def renewRec (r : IncomingContactRequest) (c : AddCall) : IncomingContactRequest :=
  { r with
    remoteSecret := c.secret
    message := c.message
    nickname := c.nickname
    lastRequestDate := c.now
    connection := c.conn }

/-- Modelled from the spec: IncomingRequestManager addRequest, whose
body is not among the sources — upsert keyed by hostname; a first call
creates, persists and appends the record and emits added; a call on an
existing hostname is a renewal that overwrites the payload fields and
lastRequestDate, re-persists, and emits only field-changed
notifications. -/
def addRequest (st : RegistryState) (h : String) (c : AddCall) : RegistryState :=
  match requestFromHostname st h with
  | none =>
    { requests := st.requests ++ [freshRec h c]
      store := saveRequest (freshRec h c) st.store
      blacklist := st.blacklist
      events := st.events ++ [RegEvent.added h] }
  | some r0 =>
    { requests := mapReplace st.requests h (renewRec r0 c)
      store := saveRequest (renewRec r0 c) st.store
      blacklist := st.blacklist
      events := st.events ++ [RegEvent.fieldsChanged h] }

/-- A sequence of addRequest calls for one hostname, in order. -/
def applyCalls (st : RegistryState) (h : String) (cs : List AddCall) : RegistryState :=
  List.foldl (fun s c => addRequest s h c) st cs

/-- The last call of the nonempty sequence c :: cs. -/
def lastOf (c : AddCall) (cs : List AddCall) : AddCall :=
  List.foldl (fun _ x => x) c cs

/-- Modelled from the spec: IncomingRequestManager removeRequest, whose
body is not among the sources — delete the persisted request namespace
of the record, drop it from the collection, emit removed. -/
def removeRequestFrom (st : RegistryState) (h : String) : RegistryState :=
  { requests := removeReqList st.requests h
    store := storeUnsetTree ["contacts", h, "request"] st.store
    blacklist := st.blacklist
    events := st.events ++ [RegEvent.removed h] }

/-- Modelled from the spec: IncomingContactRequest accept, whose body
is not among the sources — signal the transport layer externally, then
remove the record via removeRequest. -/
def acceptRequest (st : RegistryState) (h : String) : RegistryState :=
  removeRequestFrom st h

/-- Modelled from the spec: IncomingContactRequest reject, whose body
is not among the sources — remove the record via removeRequest without
touching the blacklist. -/
def rejectRequest (st : RegistryState) (h : String) : RegistryState :=
  removeRequestFrom st h

/-- Membership in a list of hostnames or session identifiers. -/
def memb {α : Type} [DecidableEq α] : List α → α → Bool
  | [], _ => false
  | x :: rest, a => if x = a then true else memb rest a

/-- Modelled from the spec: IncomingRequestManager addRejectedHost,
whose body is not among the sources — add the hostname to the persisted
blacklist set; idempotent. -/
def addRejectedHost (st : RegistryState) (h : String) : RegistryState :=
  if memb st.blacklist h then st else { st with blacklist := st.blacklist ++ [h] }

/-- IncomingRequestManager isHostnameRejected: membership in the
blacklist set (declared in the header; set semantics from the spec). -/
def isHostnameRejected (st : RegistryState) (h : String) : Bool :=
  memb st.blacklist h

/-- A sequence of addRejectedHost calls, in order. -/
def applyRejects (st : RegistryState) (hs : List String) : RegistryState :=
  List.foldl addRejectedHost st hs

/-- Count of added events for one hostname in an event trace. -/
def countAdded (h : String) : List RegEvent → Nat
  | [] => 0
  | RegEvent.added h2 :: rest => (if h2 = h then 1 else 0) + countAdded h rest
  | _ :: rest => countAdded h rest

/-- Count of removed events for one hostname in an event trace. -/
def countRemoved (h : String) : List RegEvent → Nat
  | [] => 0
  | RegEvent.removed h2 :: rest => (if h2 = h then 1 else 0) + countRemoved h rest
  | _ :: rest => countRemoved h rest

/-- hasActiveConnection, from the inline header body connection != 0:
the weak reference is non-null exactly when it was set and the
referenced transport session is still open, live being the set of open
sessions as the transport layer currently reports it. -/
def hasActiveConnection (r : IncomingContactRequest) (live : List Nat) : Bool :=
  match r.connection with
  | some cid => memb live cid
  | none => false

/-- Modelled from the spec: IncomingContactRequest setConnection, whose
body is not among the sources — associate or clear the non-owning
live-connection reference. -/
def setConnection (r : IncomingContactRequest) (c : Option Nat) : IncomingContactRequest :=
  { r with connection := c }

/-- The transport layer closes session c: the session disappears from
the open set regardless of any record that references it. -/
def closeSession : List Nat → Nat → List Nat
  | [], _ => []
  | x :: rest, c => if x = c then closeSession rest c else x :: closeSession rest c

/-- The deferred task enqueued by on_chat_request_response_received:
when the response says the request was accepted, delete the whole
persisted request block under contacts.serviceId (SettingsObject unset
of request); otherwise only a trace line is logged and the store is
untouched. -/
def chat_request_response_task (serviceId : String) (requestAccepted : Bool)
    (store : SettingsStore) : SettingsStore :=
  if requestAccepted then storeUnsetTree ["contacts", serviceId, "request"] store else store

theorem findReq_of_reqsFor_singleton (l : List IncomingContactRequest) (h : String)
    (r : IncomingContactRequest) (hl : reqsFor l h = [r]) : findReq l h = some r := by
  induction l with
  | nil => simp [reqsFor] at hl
  | cons q rest ih =>
    by_cases hq : q.hostname = h
    · simp only [reqsFor, if_pos hq] at hl
      simp only [findReq, if_pos hq]
      rw [List.cons.injEq] at hl
      rw [hl.1]
    · simp only [reqsFor, if_neg hq] at hl
      simp only [findReq, if_neg hq]
      exact ih hl

theorem reqsFor_of_findReq_none (l : List IncomingContactRequest) (h : String)
    (hl : findReq l h = none) : reqsFor l h = [] := by
  induction l with
  | nil => rfl
  | cons q rest ih =>
    by_cases hq : q.hostname = h
    · simp [findReq, hq] at hl
    · simp only [findReq, if_neg hq] at hl
      simp only [reqsFor, if_neg hq]
      exact ih hl

theorem reqsFor_append (a b : List IncomingContactRequest) (h : String) :
    reqsFor (a ++ b) h = reqsFor a h ++ reqsFor b h := by
  induction a with
  | nil => rfl
  | cons q rest ih =>
    by_cases hq : q.hostname = h
    · simp [reqsFor, hq, ih]
    · simp [reqsFor, hq, ih]

theorem mapReplace_of_reqsFor_nil (l : List IncomingContactRequest) (h : String)
    (r2 : IncomingContactRequest) (hl : reqsFor l h = []) : mapReplace l h r2 = l := by
  induction l with
  | nil => rfl
  | cons q rest ih =>
    by_cases hq : q.hostname = h
    · simp [reqsFor, hq] at hl
    · simp only [mapReplace, if_neg hq]
      rw [List.cons.injEq]
      refine ⟨rfl, ih ?_⟩
      simpa [reqsFor, hq] using hl

theorem reqsFor_mapReplace (l : List IncomingContactRequest) (h : String)
    (r r2 : IncomingContactRequest) (hr2 : r2.hostname = h) (hl : reqsFor l h = [r]) :
    reqsFor (mapReplace l h r2) h = [r2] := by
  induction l with
  | nil => simp [reqsFor] at hl
  | cons q rest ih =>
    by_cases hq : q.hostname = h
    · simp only [reqsFor, if_pos hq] at hl
      rw [List.cons.injEq] at hl
      simp only [mapReplace, if_pos hq, reqsFor, if_pos hr2]
      rw [List.cons.injEq]
      refine ⟨rfl, ?_⟩
      rw [mapReplace_of_reqsFor_nil rest h r2 hl.2]
      exact hl.2
    · simp only [reqsFor, if_neg hq] at hl
      simp only [mapReplace, if_neg hq, reqsFor, if_neg hq]
      exact ih hl

theorem findReq_removeReqList (l : List IncomingContactRequest) (h : String) :
    findReq (removeReqList l h) h = none := by
  induction l with
  | nil => rfl
  | cons q rest ih =>
    by_cases hq : q.hostname = h
    · simp [removeReqList, hq, ih]
    · simp [removeReqList, hq, findReq, ih]

theorem countAdded_append (h : String) (a b : List RegEvent) :
    countAdded h (a ++ b) = countAdded h a + countAdded h b := by
  induction a with
  | nil => simp [countAdded]
  | cons e rest ih => cases e <;> simp [countAdded, ih, Nat.add_assoc]

theorem countRemoved_append (h : String) (a b : List RegEvent) :
    countRemoved h (a ++ b) = countRemoved h a + countRemoved h b := by
  induction a with
  | nil => simp [countRemoved]
  | cons e rest ih => cases e <;> simp [countRemoved, ih, Nat.add_assoc]

theorem memb_append {α : Type} [DecidableEq α] (a b : List α) (x : α) :
    memb (a ++ b) x = (memb a x || memb b x) := by
  induction a with
  | nil => rfl
  | cons y rest ih =>
    by_cases hy : y = x
    · simp [memb, hy]
    · simp [memb, hy, ih]

theorem memb_closeSession (live : List Nat) (c : Nat) :
    memb (closeSession live c) c = false := by
  induction live with
  | nil => rfl
  | cons x rest ih =>
    by_cases hx : x = c
    · simp [closeSession, hx, ih]
    · simp [closeSession, memb, hx, ih]

/-- Invariant of a hostname holding exactly one record in the registry:
the collection contains r and only r under key h, and r carries h. -/
def RegInv (st : RegistryState) (h : String) (r : IncomingContactRequest) : Prop :=
  reqsFor st.requests h = [r] ∧ r.hostname = h

theorem addRequest_fresh (st : RegistryState) (h : String) (c : AddCall)
    (h0 : requestFromHostname st h = none) :
    addRequest st h c =
      { requests := st.requests ++ [freshRec h c]
        store := saveRequest (freshRec h c) st.store
        blacklist := st.blacklist
        events := st.events ++ [RegEvent.added h] } := by
  simp [addRequest, h0]

theorem addRequest_fresh_inv (st : RegistryState) (h : String) (c : AddCall)
    (h0 : requestFromHostname st h = none) :
    RegInv (addRequest st h c) h (freshRec h c) := by
  rw [addRequest_fresh st h c h0]
  refine ⟨?_, rfl⟩
  have hnil : reqsFor st.requests h = [] := reqsFor_of_findReq_none st.requests h h0
  simp [reqsFor_append, hnil, reqsFor, freshRec]

theorem addRequest_renew (st : RegistryState) (h : String) (c : AddCall)
    (r : IncomingContactRequest) (hInv : RegInv st h r) :
    addRequest st h c =
      { requests := mapReplace st.requests h (renewRec r c)
        store := saveRequest (renewRec r c) st.store
        blacklist := st.blacklist
        events := st.events ++ [RegEvent.fieldsChanged h] } := by
  have hfind : requestFromHostname st h = some r :=
    findReq_of_reqsFor_singleton st.requests h r hInv.1
  simp [addRequest, hfind]

theorem addRequest_renew_inv (st : RegistryState) (h : String) (c : AddCall)
    (r : IncomingContactRequest) (hInv : RegInv st h r) :
    RegInv (addRequest st h c) h (renewRec r c) := by
  rw [addRequest_renew st h c r hInv]
  refine ⟨?_, hInv.2⟩
  exact reqsFor_mapReplace st.requests h r (renewRec r c) hInv.2 hInv.1

theorem applyCalls_renew (h : String) (cs : List AddCall) :
    ∀ (st : RegistryState) (r : IncomingContactRequest), RegInv st h r →
      RegInv (applyCalls st h cs) h (List.foldl renewRec r cs)
      ∧ countAdded h (applyCalls st h cs).events = countAdded h st.events
      ∧ countRemoved h (applyCalls st h cs).events = countRemoved h st.events := by
  induction cs with
  | nil => exact fun st r hInv => ⟨hInv, rfl, rfl⟩
  | cons c cs ih =>
    intro st r hInv
    have hstep := addRequest_renew_inv st h c r hInv
    have hrec := ih (addRequest st h c) (renewRec r c) hstep
    have hunf : applyCalls st h (c :: cs) = applyCalls (addRequest st h c) h cs := rfl
    refine ⟨hrec.1, ?_, ?_⟩
    · rw [hunf, hrec.2.1, addRequest_renew st h c r hInv]
      simp [countAdded_append, countAdded]
    · rw [hunf, hrec.2.2, addRequest_renew st h c r hInv]
      simp [countRemoved_append, countRemoved]

theorem foldl_renew_last (cs : List AddCall) :
    ∀ (c : AddCall) (r : IncomingContactRequest),
      List.foldl renewRec (renewRec r c) cs = renewRec r (lastOf c cs) := by
  induction cs with
  | nil => exact fun c r => rfl
  | cons c2 cs ih =>
    intro c r
    have habs : renewRec (renewRec r c) c2 = renewRec r c2 := rfl
    calc List.foldl renewRec (renewRec r c) (c2 :: cs)
        = List.foldl renewRec (renewRec r c2) cs := by rw [List.foldl_cons, habs]
      _ = renewRec r (lastOf c2 cs) := ih c2 r
      _ = renewRec r (lastOf c (c2 :: cs)) := rfl

/-- C5: a sequence of addRequest calls for one hostname leaves exactly
one record for it: requestDate is the first call's timestamp,
lastRequestDate and the secret, connection, nickname and message fields
come from the last call, and exactly one added event (and no removed
event) is emitted, by the first call only. -/
theorem addRequest_upsert_single (st : RegistryState) (h : String) (c : AddCall)
    (cs : List AddCall) (h0 : requestFromHostname st h = none) :
    reqsFor (applyCalls st h (c :: cs)).requests h =
      [{ hostname := h
         remoteSecret := (lastOf c cs).secret
         message := (lastOf c cs).message
         nickname := (lastOf c cs).nickname
         requestDate := c.now
         lastRequestDate := (lastOf c cs).now
         connection := (lastOf c cs).conn }]
    ∧ requestFromHostname (applyCalls st h (c :: cs)) h =
      some { hostname := h
             remoteSecret := (lastOf c cs).secret
             message := (lastOf c cs).message
             nickname := (lastOf c cs).nickname
             requestDate := c.now
             lastRequestDate := (lastOf c cs).now
             connection := (lastOf c cs).conn }
    ∧ countAdded h (applyCalls st h (c :: cs)).events = countAdded h st.events + 1
    ∧ countRemoved h (applyCalls st h (c :: cs)).events = countRemoved h st.events := by
  have hunf : applyCalls st h (c :: cs) = applyCalls (addRequest st h c) h cs := rfl
  have hfresh := addRequest_fresh_inv st h c h0
  have hmain := applyCalls_renew h cs (addRequest st h c) (freshRec h c) hfresh
  have hfold : List.foldl renewRec (freshRec h c) cs = renewRec (freshRec h c) (lastOf c cs) :=
    foldl_renew_last cs c (freshRec h c)
  have hsingle : reqsFor (applyCalls st h (c :: cs)).requests h =
      [renewRec (freshRec h c) (lastOf c cs)] := by
    rw [hunf, ← hfold]
    exact hmain.1.1
  refine ⟨hsingle, ?_, ?_, ?_⟩
  · exact findReq_of_reqsFor_singleton _ h _ hsingle
  · rw [hunf, hmain.2.1, addRequest_fresh st h c h0]
    simp [countAdded_append, countAdded]
  · rw [hunf, hmain.2.2, addRequest_fresh st h c h0]
    simp [countRemoved_append, countRemoved]

/-- Witness for C5: two calls on abc.onion from an empty registry leave
one record with the first timestamp as requestDate and the second
call's payload, and exactly one added event. -/
theorem addRequest_upsert_single_witness :
    reqsFor (applyCalls initRegistry "abc.onion"
        [{ now := 100, secret := "s1", conn := some 7, nickname := "Alice", message := "hi" },
         { now := 200, secret := "s2", conn := none, nickname := "Alicia", message := "yo" }]).requests "abc.onion" =
      [{ hostname := "abc.onion", remoteSecret := "s2", message := "yo", nickname := "Alicia",
         requestDate := 100, lastRequestDate := 200, connection := none }]
    ∧ requestFromHostname (applyCalls initRegistry "abc.onion"
        [{ now := 100, secret := "s1", conn := some 7, nickname := "Alice", message := "hi" },
         { now := 200, secret := "s2", conn := none, nickname := "Alicia", message := "yo" }]) "abc.onion" =
      some { hostname := "abc.onion", remoteSecret := "s2", message := "yo", nickname := "Alicia",
             requestDate := 100, lastRequestDate := 200, connection := none }
    ∧ countAdded "abc.onion" (applyCalls initRegistry "abc.onion"
        [{ now := 100, secret := "s1", conn := some 7, nickname := "Alice", message := "hi" },
         { now := 200, secret := "s2", conn := none, nickname := "Alicia", message := "yo" }]).events =
      countAdded "abc.onion" initRegistry.events + 1
    ∧ countRemoved "abc.onion" (applyCalls initRegistry "abc.onion"
        [{ now := 100, secret := "s1", conn := some 7, nickname := "Alice", message := "hi" },
         { now := 200, secret := "s2", conn := none, nickname := "Alicia", message := "yo" }]).events =
      countRemoved "abc.onion" initRegistry.events :=
  addRequest_upsert_single initRegistry "abc.onion"
    { now := 100, secret := "s1", conn := some 7, nickname := "Alice", message := "hi" }
    [{ now := 200, secret := "s2", conn := none, nickname := "Alicia", message := "yo" }] rfl

/-- C6: after accept or reject on a record held for hostname h, the
record is absent from the collection, every persisted key of its
request namespace is gone while all other keys are untouched, and
exactly one removed event is emitted for it by the removal. -/
theorem accept_reject_remove (st : RegistryState) (h : String) (r : IncomingContactRequest)
    (k : List String) (_hmem : requestFromHostname st h = some r) :
    requestFromHostname (acceptRequest st h) h = none
    ∧ requestFromHostname (rejectRequest st h) h = none
    ∧ storeRead (acceptRequest st h).store k =
        (if keyUnder ["contacts", h, "request"] k then none else storeRead st.store k)
    ∧ storeRead (rejectRequest st h).store k =
        (if keyUnder ["contacts", h, "request"] k then none else storeRead st.store k)
    ∧ (acceptRequest st h).events = st.events ++ [RegEvent.removed h]
    ∧ (rejectRequest st h).events = st.events ++ [RegEvent.removed h]
    ∧ countRemoved h (acceptRequest st h).events = countRemoved h st.events + 1 := by
  refine ⟨findReq_removeReqList st.requests h, findReq_removeReqList st.requests h,
    storeRead_unsetTree _ _ _, storeRead_unsetTree _ _ _, rfl, rfl, ?_⟩
  simp [acceptRequest, removeRequestFrom, countRemoved_append, countRemoved]

/-- Witness for C6 at a registry holding one record for abc.onion with
a persisted entry, read back at the persisted secret key. -/
theorem accept_reject_remove_witness :
    requestFromHostname (acceptRequest
      { requests := [{ hostname := "abc.onion", remoteSecret := "s1", message := "hi",
                       nickname := "Alice", requestDate := 100, lastRequestDate := 100,
                       connection := some 7 }]
        store := saveRequest { hostname := "abc.onion", remoteSecret := "s1", message := "hi",
                               nickname := "Alice", requestDate := 100, lastRequestDate := 100,
                               connection := some 7 } []
        blacklist := []
        events := [RegEvent.added "abc.onion"] } "abc.onion") "abc.onion" = none
    ∧ requestFromHostname (rejectRequest
      { requests := [{ hostname := "abc.onion", remoteSecret := "s1", message := "hi",
                       nickname := "Alice", requestDate := 100, lastRequestDate := 100,
                       connection := some 7 }]
        store := saveRequest { hostname := "abc.onion", remoteSecret := "s1", message := "hi",
                               nickname := "Alice", requestDate := 100, lastRequestDate := 100,
                               connection := some 7 } []
        blacklist := []
        events := [RegEvent.added "abc.onion"] } "abc.onion") "abc.onion" = none
    ∧ storeRead (acceptRequest
      { requests := [{ hostname := "abc.onion", remoteSecret := "s1", message := "hi",
                       nickname := "Alice", requestDate := 100, lastRequestDate := 100,
                       connection := some 7 }]
        store := saveRequest { hostname := "abc.onion", remoteSecret := "s1", message := "hi",
                               nickname := "Alice", requestDate := 100, lastRequestDate := 100,
                               connection := some 7 } []
        blacklist := []
        events := [RegEvent.added "abc.onion"] } "abc.onion").store
        ["contacts", "abc.onion", "request", "secret"] =
      (if keyUnder ["contacts", "abc.onion", "request"] ["contacts", "abc.onion", "request", "secret"]
        then none
        else storeRead (saveRequest { hostname := "abc.onion", remoteSecret := "s1", message := "hi",
                                      nickname := "Alice", requestDate := 100, lastRequestDate := 100,
                                      connection := some 7 } []) ["contacts", "abc.onion", "request", "secret"])
    ∧ storeRead (rejectRequest
      { requests := [{ hostname := "abc.onion", remoteSecret := "s1", message := "hi",
                       nickname := "Alice", requestDate := 100, lastRequestDate := 100,
                       connection := some 7 }]
        store := saveRequest { hostname := "abc.onion", remoteSecret := "s1", message := "hi",
                               nickname := "Alice", requestDate := 100, lastRequestDate := 100,
                               connection := some 7 } []
        blacklist := []
        events := [RegEvent.added "abc.onion"] } "abc.onion").store
        ["contacts", "abc.onion", "request", "secret"] =
      (if keyUnder ["contacts", "abc.onion", "request"] ["contacts", "abc.onion", "request", "secret"]
        then none
        else storeRead (saveRequest { hostname := "abc.onion", remoteSecret := "s1", message := "hi",
                                      nickname := "Alice", requestDate := 100, lastRequestDate := 100,
                                      connection := some 7 } []) ["contacts", "abc.onion", "request", "secret"])
    ∧ (acceptRequest
      { requests := [{ hostname := "abc.onion", remoteSecret := "s1", message := "hi",
                       nickname := "Alice", requestDate := 100, lastRequestDate := 100,
                       connection := some 7 }]
        store := saveRequest { hostname := "abc.onion", remoteSecret := "s1", message := "hi",
                               nickname := "Alice", requestDate := 100, lastRequestDate := 100,
                               connection := some 7 } []
        blacklist := []
        events := [RegEvent.added "abc.onion"] } "abc.onion").events =
      [RegEvent.added "abc.onion"] ++ [RegEvent.removed "abc.onion"]
    ∧ (rejectRequest
      { requests := [{ hostname := "abc.onion", remoteSecret := "s1", message := "hi",
                       nickname := "Alice", requestDate := 100, lastRequestDate := 100,
                       connection := some 7 }]
        store := saveRequest { hostname := "abc.onion", remoteSecret := "s1", message := "hi",
                               nickname := "Alice", requestDate := 100, lastRequestDate := 100,
                               connection := some 7 } []
        blacklist := []
        events := [RegEvent.added "abc.onion"] } "abc.onion").events =
      [RegEvent.added "abc.onion"] ++ [RegEvent.removed "abc.onion"]
    ∧ countRemoved "abc.onion" (acceptRequest
      { requests := [{ hostname := "abc.onion", remoteSecret := "s1", message := "hi",
                       nickname := "Alice", requestDate := 100, lastRequestDate := 100,
                       connection := some 7 }]
        store := saveRequest { hostname := "abc.onion", remoteSecret := "s1", message := "hi",
                               nickname := "Alice", requestDate := 100, lastRequestDate := 100,
                               connection := some 7 } []
        blacklist := []
        events := [RegEvent.added "abc.onion"] } "abc.onion").events =
      countRemoved "abc.onion" [RegEvent.added "abc.onion"] + 1 :=
  accept_reject_remove
    { requests := [{ hostname := "abc.onion", remoteSecret := "s1", message := "hi",
                     nickname := "Alice", requestDate := 100, lastRequestDate := 100,
                     connection := some 7 }]
      store := saveRequest { hostname := "abc.onion", remoteSecret := "s1", message := "hi",
                             nickname := "Alice", requestDate := 100, lastRequestDate := 100,
                             connection := some 7 } []
      blacklist := []
      events := [RegEvent.added "abc.onion"] } "abc.onion"
    { hostname := "abc.onion", remoteSecret := "s1", message := "hi",
      nickname := "Alice", requestDate := 100, lastRequestDate := 100,
      connection := some 7 }
    ["contacts", "abc.onion", "request", "secret"] rfl

theorem addRejectedHost_mem (st : RegistryState) (h : String) :
    isHostnameRejected (addRejectedHost st h) h = true := by
  by_cases hb : memb st.blacklist h = true
  · simp [addRejectedHost, hb, isHostnameRejected]
  · simp [addRejectedHost, hb, isHostnameRejected, memb_append, memb]

theorem applyRejects_false (h2 : String) (hs : List String) :
    ∀ st : RegistryState, isHostnameRejected st h2 = false → h2 ∉ hs →
      isHostnameRejected (applyRejects st hs) h2 = false := by
  induction hs with
  | nil => exact fun st hf _ => hf
  | cons x rest ih =>
    intro st hf hnotin
    simp only [List.mem_cons, not_or] at hnotin
    have hstep : isHostnameRejected (addRejectedHost st x) h2 = false := by
      by_cases hb : memb st.blacklist x = true
      · simpa [addRejectedHost, hb, isHostnameRejected] using hf
      · have hfm : memb st.blacklist h2 = false := hf
        have hxh : ¬ x = h2 := fun hcon => hnotin.1 hcon.symm
        simp [addRejectedHost, hb, isHostnameRejected, memb_append, memb, hfm, hxh]
    exact ih (addRejectedHost st x) hstep hnotin.2

/-- C7: after addRejectedHost the hostname is reported rejected, a
second addRejectedHost on the same hostname leaves the registry
unchanged, and a hostname never passed to addRejectedHost is never
reported rejected. -/
theorem rejected_host_blacklist (st : RegistryState) (h h2 : String) (hs : List String)
    (hnotin : h2 ∉ hs) (hfalse : isHostnameRejected st h2 = false) :
    isHostnameRejected (addRejectedHost st h) h = true
    ∧ addRejectedHost (addRejectedHost st h) h = addRejectedHost st h
    ∧ isHostnameRejected (applyRejects st hs) h2 = false := by
  refine ⟨addRejectedHost_mem st h, ?_, applyRejects_false h2 hs st hfalse hnotin⟩
  have hm : memb (addRejectedHost st h).blacklist h = true := addRejectedHost_mem st h
  have hstep : addRejectedHost (addRejectedHost st h) h =
      if memb (addRejectedHost st h).blacklist h then addRejectedHost st h
      else { addRejectedHost st h with
             blacklist := (addRejectedHost st h).blacklist ++ [h] } := rfl
  rw [hstep, if_pos hm]

/-- Witness for C7: blacklist evil.onion from a fresh registry; the
untouched good.onion stays unrejected. -/
theorem rejected_host_blacklist_witness :
    isHostnameRejected (addRejectedHost initRegistry "evil.onion") "evil.onion" = true
    ∧ addRejectedHost (addRejectedHost initRegistry "evil.onion") "evil.onion" =
        addRejectedHost initRegistry "evil.onion"
    ∧ isHostnameRejected (applyRejects initRegistry ["evil.onion"]) "good.onion" = false :=
  rejected_host_blacklist initRegistry "evil.onion" "good.onion" ["evil.onion"]
    (by decide) rfl

theorem requestKey_ne (h : String) (f1 f2 : String) (hf : f1 ≠ f2) :
    requestKey h f1 ≠ requestKey h f2 := by
  intro hcon
  apply hf
  simpa [requestKey] using hcon

theorem keyUnder_requestKey (h f : String) :
    keyUnder ["contacts", h, "request"] (requestKey h f) = true := by
  simp [keyUnder, requestKey]

theorem saveRequest_reads (r : IncomingContactRequest) (s : SettingsStore) :
    storeRead (saveRequest r s) (requestKey r.hostname "secret") = some (SettingVal.str r.remoteSecret)
    ∧ storeRead (saveRequest r s) (requestKey r.hostname "message") = some (SettingVal.str r.message)
    ∧ storeRead (saveRequest r s) (requestKey r.hostname "nickname") = some (SettingVal.str r.nickname)
    ∧ storeRead (saveRequest r s) (requestKey r.hostname "date") = some (SettingVal.num r.requestDate)
    ∧ storeRead (saveRequest r s) (requestKey r.hostname "lastRequestDate") = some (SettingVal.num r.lastRequestDate) := by
  unfold saveRequest
  refine ⟨?_, ?_, ?_, ?_, ?_⟩
  · rw [storeRead_write_ne _ _ _ _ (requestKey_ne r.hostname "secret" "lastRequestDate" (by decide)),
        storeRead_write_ne _ _ _ _ (requestKey_ne r.hostname "secret" "date" (by decide)),
        storeRead_write_ne _ _ _ _ (requestKey_ne r.hostname "secret" "nickname" (by decide)),
        storeRead_write_ne _ _ _ _ (requestKey_ne r.hostname "secret" "message" (by decide)),
        storeRead_write_self]
  · rw [storeRead_write_ne _ _ _ _ (requestKey_ne r.hostname "message" "lastRequestDate" (by decide)),
        storeRead_write_ne _ _ _ _ (requestKey_ne r.hostname "message" "date" (by decide)),
        storeRead_write_ne _ _ _ _ (requestKey_ne r.hostname "message" "nickname" (by decide)),
        storeRead_write_self]
  · rw [storeRead_write_ne _ _ _ _ (requestKey_ne r.hostname "nickname" "lastRequestDate" (by decide)),
        storeRead_write_ne _ _ _ _ (requestKey_ne r.hostname "nickname" "date" (by decide)),
        storeRead_write_self]
  · rw [storeRead_write_ne _ _ _ _ (requestKey_ne r.hostname "date" "lastRequestDate" (by decide)),
        storeRead_write_self]
  · rw [storeRead_write_self]

theorem loadRequest_saveRequest (r : IncomingContactRequest) (s : SettingsStore) :
    loadRequest r.hostname (saveRequest r s) = { r with connection := none } := by
  have hr := saveRequest_reads r s
  simp [loadRequest, readStr, readNum, hr.1, hr.2.1, hr.2.2.1, hr.2.2.2.1, hr.2.2.2.2]

theorem saveRequest_frame (r : IncomingContactRequest) (s : SettingsStore) (k : List String)
    (hk : keyUnder ["contacts", r.hostname, "request"] k = false) :
    storeRead (saveRequest r s) k = storeRead s k := by
  have hne : ∀ f : String, k ≠ requestKey r.hostname f := by
    intro f hcon
    rw [hcon, keyUnder_requestKey] at hk
    exact Bool.noConfusion hk
  unfold saveRequest
  rw [storeRead_write_ne _ _ _ _ (hne "lastRequestDate"),
      storeRead_write_ne _ _ _ _ (hne "date"),
      storeRead_write_ne _ _ _ _ (hne "nickname"),
      storeRead_write_ne _ _ _ _ (hne "message"),
      storeRead_write_ne _ _ _ _ (hne "secret")]

/-- C8: save then a fresh load for the same hostname reconstructs the
record's secret, message, nickname, requestDate and lastRequestDate
exactly; save changes no key outside contacts.hostname.request, and
load reads only keys of that namespace: two stores agreeing there load
identically. -/
theorem save_load_roundtrip (r : IncomingContactRequest) (store : SettingsStore)
    (k : List String) (h : String) (s1 s2 : SettingsStore)
    (hk : keyUnder ["contacts", r.hostname, "request"] k = false)
    (hagree : ∀ f : String, storeRead s1 (requestKey h f) = storeRead s2 (requestKey h f)) :
    loadRequest r.hostname (saveRequest r store) = { r with connection := none }
    ∧ storeRead (saveRequest r store) k = storeRead store k
    ∧ loadRequest h s1 = loadRequest h s2 := by
  refine ⟨loadRequest_saveRequest r store, saveRequest_frame r store k hk, ?_⟩
  simp [loadRequest, readStr, readNum, hagree]

/-- Witness for C8: a concrete record saved into an empty store loads
back identically, and the unrelated identity key is untouched. -/
theorem save_load_roundtrip_witness :
    loadRequest "abc.onion" (saveRequest
      { hostname := "abc.onion", remoteSecret := "s1", message := "hi", nickname := "Alice",
        requestDate := 100, lastRequestDate := 200, connection := some 7 } []) =
      { hostname := "abc.onion", remoteSecret := "s1", message := "hi", nickname := "Alice",
        requestDate := 100, lastRequestDate := 200, connection := none }
    ∧ storeRead (saveRequest
      { hostname := "abc.onion", remoteSecret := "s1", message := "hi", nickname := "Alice",
        requestDate := 100, lastRequestDate := 200, connection := some 7 } []) ["identity"] =
      storeRead [] ["identity"]
    ∧ loadRequest "abc.onion" [] = loadRequest "abc.onion" [] :=
  save_load_roundtrip
    { hostname := "abc.onion", remoteSecret := "s1", message := "hi", nickname := "Alice",
      requestDate := 100, lastRequestDate := 200, connection := some 7 }
    [] ["identity"] "abc.onion" [] [] rfl (fun _ => rfl)

/-- C9: hasActiveConnection is true exactly when the live-connection
reference is set and the referenced transport session is still open;
clearing the reference makes it false, and the reference is non-owning:
the transport layer closing the session makes it false regardless of
the record holding the reference. -/
theorem active_connection_liveness (r : IncomingContactRequest) (live : List Nat)
    (c : Nat) (oc : Option Nat) :
    (hasActiveConnection r live = true ↔
      ∃ cid, r.connection = some cid ∧ memb live cid = true)
    ∧ hasActiveConnection (setConnection r none) live = false
    ∧ hasActiveConnection (setConnection r (some c)) (closeSession live c) = false
    ∧ (setConnection r oc).connection = oc := by
  refine ⟨?_, rfl, ?_, rfl⟩
  · cases hc : r.connection with
    | none => simp [hasActiveConnection, hc]
    | some cid => simp [hasActiveConnection, hc]
  · simp [hasActiveConnection, setConnection, memb_closeSession]

/-- C10: the task enqueued on a chat-request response leaves the store
completely unchanged when the request was not accepted, and when it was
accepted it deletes exactly the persisted request block under
contacts.serviceId: every key inside that namespace reads back absent
and every key outside it is untouched. -/
theorem chat_response_request_block (serviceId : String) (store : SettingsStore)
    (k : List String) :
    chat_request_response_task serviceId false store = store
    ∧ storeRead (chat_request_response_task serviceId true store) k =
        (if keyUnder ["contacts", serviceId, "request"] k then none else storeRead store k) := by
  refine ⟨rfl, ?_⟩
  simpa [chat_request_response_task] using
    storeRead_unsetTree ["contacts", serviceId, "request"] store k
